import Mathlib

/-!
Verification development for the go-settings repository (package `settings`,
file `settings.go`): a shallow embedding in Lean 4 of the resolution engine
(the `Parser` session, the `Setting` builder model, the three source adapters
and the string coercion layer), together with theorems settling the frozen
claims about the specification.

Modelling conventions:
- Go pointers to destination cells are modelled by embedding the pointee value
  in the `Setting` itself (`v : Option GoValue`); `none` models a nil pointer.
- Go `error` values are an explicit `GoError` sum; `errors.Is(err, ErrNotFound)`
  holds exactly for the `errNotFound` constructor, because the other
  constructors model distinct `errors.New` values or errors produced by
  external libraries, none of which wrap the package sentinel `ErrNotFound`.
- Go panics (string index out of range, failed interface type assertions) are
  modelled as an explicit outcome (`Outcome.panicked`) or as `Option.none` for
  builder calls.
- The process environment (`os.LookupEnv`) is passed as an explicit
  association list snapshot.
- The external goccy/go-yaml collaborator (`yaml.PathString`, `Path.Read`) is
  passed as an explicit record of functions (`YamlLib`); the engine code under
  verification never depends on its internals, only on how it classifies the
  results, which is taken from `parseYAML` in the source.
- Go `int` and `time.Duration` are 64-bit; the parse boundaries enforce the
  range `[-2^63, 2^63)` exactly as `strconv` and `time.ParseDuration` do.
- Go `float64` values reached through `strconv.ParseFloat` are modelled by the
  exact decimal rational they denote; the rounding to binary and the range
  error for magnitudes beyond the largest float are outside this abstraction,
  as are the `inf`/`nan`/hexadecimal input forms.
-/

set_option maxRecDepth 10000

/-- Value kinds supported by the engine: the five scalar kinds of the type
switches in `setFromString` and `Parser.set`, plus a kind standing for any
other dynamic type (which those switches send to their `default` branch). -/
inductive GoKind
  | kStr
  | kInt
  | kFloat
  | kBool
  | kDur
  | kOther
  deriving DecidableEq, Repr

/-- A scalar value held in a destination cell (the pointee of the `any`
pointer stored in `Setting.v`), or stored as a default value. `vOther` stands
for a value of a dynamic type outside the five supported kinds. Durations are
in nanoseconds, as Go `time.Duration`. Floats carry the exact decimal
rational they denote (see the module docstring). -/
inductive GoValue
  | vStr (s : String)
  | vInt (n : Int)
  | vFloat (q : Rat)
  | vBool (b : Bool)
  | vDur (n : Int)
  | vOther
  deriving DecidableEq, Repr

/-- Dynamic kind of a value, as seen by the Go type switches. -/
def GoValue.kind : GoValue → GoKind
  | .vStr _ => .kStr
  | .vInt _ => .kInt
  | .vFloat _ => .kFloat
  | .vBool _ => .kBool
  | .vDur _ => .kDur
  | .vOther => .kOther

/-- Errors of the engine. The first four constructors model the four
`errors.New` sentinels of the package (`ErrUnsupportedType`, `ErrNilPointer`,
`ErrRequiredFieldNotFound`, `ErrNotFound`). `typeError` models an error
returned by `strconv`/`time` parsing, `yamlError` an error returned by the
external goccy/go-yaml library, and `flagError` an error returned by
`flag.FlagSet.Parse`. Message texts are abbreviated; no theorem inspects
them. -/
inductive GoError
  | errUnsupportedType
  | errNilPointer
  | errRequiredFieldNotFound
  | errNotFound
  | typeError (msg : String)
  | yamlError (msg : String)
  | flagError (msg : String)
  deriving DecidableEq, Repr

/-- Model of `errors.Is(err, ErrNotFound)`. Only the package sentinel itself
satisfies it: `typeError`, `yamlError` and `flagError` model error values
created by other packages (`strconv`, goccy/go-yaml, `flag`), which do not
wrap this package sentinel, so identity comparison fails for them. -/
def errorsIsNotFound : GoError → Bool
  | .errNotFound => true
  | _ => false

/-- Decimal digit test, Go `'0' <= c && c <= '9'`. -/
def isDigitChar (c : Char) : Bool :=
  48 ≤ c.toNat ∧ c.toNat ≤ 57

/-- Numeric value of a decimal digit character. -/
def digitVal (c : Char) : Nat := c.toNat - 48

/-- Value of a list of decimal digit characters, most significant first. -/
def digitsVal (l : List Char) : Nat :=
  l.foldl (fun a c => 10 * a + digitVal c) 0

/-- Accumulating digit loop: fails at the first non-digit. Overflow is checked
after the fact against the int64 bounds (equivalent to the incremental cutoff
check of `strconv.ParseInt`, since the digit value is monotone in the digits
consumed). -/
def parseDigitsGo : List Char → Nat → Option Nat
  | [], acc => some acc
  | c :: cs, acc =>
    if isDigitChar c then parseDigitsGo cs (10 * acc + digitVal c) else none

/-- Parse a nonempty all-digit list to its value; `none` if empty or if any
character is not a decimal digit. Models the digit loop of
`strconv.ParseInt`. -/
def parseDigits : List Char → Option Nat
  | [] => none
  | l => parseDigitsGo l 0

/-- Model of Go `strconv.Atoi` (= `strconv.ParseInt(s, 10, 64)`): optional
sign, then one or more decimal digits, with signed 64-bit range checking. -/
def goAtoi (s : String) : Except String Int :=
  match s.data with
  | [] => .error "invalid syntax"
  | c :: rest =>
    let (neg, digits) :=
      if c = '-' then (true, rest)
      else if c = '+' then (false, rest)
      else (false, c :: rest)
    match parseDigits digits with
    | none => .error "invalid syntax"
    | some n =>
      if neg then
        if n ≤ 2 ^ 63 then .ok (-(n : Int)) else .error "value out of range"
      else
        if n ≤ 2 ^ 63 - 1 then .ok (n : Int) else .error "value out of range"

/-- Model of Go `strconv.ParseBool`: the exact token set accepted by the
standard library. -/
def goParseBool (s : String) : Except String Bool :=
  if s = "1" ∨ s = "t" ∨ s = "T" ∨ s = "TRUE" ∨ s = "true" ∨ s = "True" then
    .ok true
  else if s = "0" ∨ s = "f" ∨ s = "F" ∨ s = "FALSE" ∨ s = "false" ∨ s = "False" then
    .ok false
  else
    .error "invalid syntax"

/-- Split a character list into its maximal decimal-digit prefix and the
rest. -/
def scanDigits : List Char → List Char × List Char
  | [] => ([], [])
  | c :: cs =>
    if isDigitChar c then
      let (d, r) := scanDigits cs
      (c :: d, r)
    else
      ([], c :: cs)

/-- Mantissa rational from integer digits, fraction digits. -/
def mantissaVal (d1 d2 : List Char) : Rat :=
  (digitsVal (d1 ++ d2) : Rat) / (10 : Rat) ^ d2.length

/-- Apply a signed decimal exponent to a rational. -/
def applyExp (q : Rat) (negE : Bool) (e : Nat) : Rat :=
  if negE then q / (10 : Rat) ^ e else q * (10 : Rat) ^ e

/-- Mantissa and exponent reading of the float model, after the sign has
been consumed: `digits [. digits]? ([eE] [+-]? digits)?` with at least one
mantissa digit, evaluated exactly into a rational. -/
def goParseFloatBody (neg : Bool) (l1 : List Char) : Except String Rat :=
  let (d1, r1) := scanDigits l1
  let (d2, r2) :=
    match r1 with
    | '.' :: t => scanDigits t
    | t => ([], t)
  if d1 = [] ∧ d2 = [] then .error "invalid syntax"
  else
    let m := mantissaVal d1 d2
    let signed := if neg then -m else m
    match r2 with
    | [] => .ok signed
    | e :: t =>
      if e = 'e' ∨ e = 'E' then
        let (negE, t1) :=
          match t with
          | c :: u =>
            if c = '-' then (true, u)
            else if c = '+' then (false, u)
            else (false, c :: u)
          | [] => (false, [])
        let (d3, r3) := scanDigits t1
        if d3 = [] ∨ r3 ≠ [] then .error "invalid syntax"
        else .ok (applyExp signed negE (digitsVal d3))
      else .error "invalid syntax"

/-- Model of Go `strconv.ParseFloat(s, 64)` on its decimal grammar
`[+-]? digits [. digits]? ([eE] [+-]? digits)?` with at least one mantissa
digit, evaluated exactly (see the module docstring for the abstraction:
binary rounding, range errors and the `inf`/`nan`/hex and underscore forms
are outside the model). The sign is consumed here, the mantissa and exponent
in `goParseFloatBody`, as in the `special`/`readFloat` split of the Go
source. -/
def goParseFloat (s : String) : Except String Rat :=
  match s.data with
  | [] => .error "invalid syntax"
  | c :: t =>
    if c = '-' then goParseFloatBody true t
    else if c = '+' then goParseFloatBody false t
    else goParseFloatBody false (c :: t)

/-- Split a character list into its maximal prefix of unit characters (every
character that is neither a digit nor a dot) and the rest; models the unit
scan of `time.ParseDuration`. -/
def scanUnitChars : List Char → List Char × List Char
  | [] => ([], [])
  | c :: cs =>
    if c = '.' ∨ isDigitChar c then ([], c :: cs)
    else
      let (u, r) := scanUnitChars cs
      (c :: u, r)

/-- Unit table of `time.ParseDuration`, in nanoseconds. -/
def unitScale : String → Option Nat
  | "ns" => some 1
  | "us" => some 1000
  | "µs" => some 1000
  | "μs" => some 1000
  | "ms" => some 1000000
  | "s" => some 1000000000
  | "m" => some 60000000000
  | "h" => some 3600000000000
  | _ => none

/-- Scan the optional fractional part of a duration term. Returns the
fraction numerator, its scale (a power of ten), whether any fraction digit
was consumed, and the rest of the input. -/
def durFracScan : List Char → Nat × Nat × Bool × List Char
  | '.' :: t =>
    let (frd, r) := scanDigits t
    (digitsVal frd, 10 ^ frd.length, !frd.isEmpty, r)
  | t => (0, 1, false, t)

/-- Parse one `digits [. digits] unit` term of a duration. Returns the term
value in nanoseconds and the rest of the input. The fractional contribution
is `f * unit / scale` truncated, the exact-arithmetic abstraction of the
float64 computation in `time.ParseDuration`. Error classification follows
the Go source: no digits at all, missing unit, and unknown unit are each
errors. -/
def goDurTerm (l : List Char) : Except String (Nat × List Char) :=
  let (dig, r1) := scanDigits l
  let (fr, sc, post, r2) := durFracScan r1
  if dig.isEmpty && !post then .error "invalid duration"
  else
    let (u, r3) := scanUnitChars r2
    if u.isEmpty then .error "missing unit in duration"
    else
      match unitScale (String.mk u) with
      | none => .error "unknown unit in duration"
      | some unit => .ok (digitsVal dig * unit + fr * unit / sc, r3)

/-- Length of the rest of `scanDigits` is bounded by the input length. -/
theorem scanDigits_snd_length (l : List Char) : (scanDigits l).2.length ≤ l.length := by
  induction l with
  | nil => simp [scanDigits]
  | cons c cs ih =>
    simp only [scanDigits]
    by_cases h : isDigitChar c
    · simp [h]
      exact Nat.le_succ_of_le ih
    · simp [h]

/-- Length of the rest of `scanUnitChars` is bounded by the input length. -/
theorem scanUnitChars_snd_length (l : List Char) : (scanUnitChars l).2.length ≤ l.length := by
  induction l with
  | nil => simp [scanUnitChars]
  | cons c cs ih =>
    simp only [scanUnitChars]
    by_cases h : c = '.' ∨ isDigitChar c
    · simp [h]
    · simp [h]
      exact Nat.le_succ_of_le ih

/-- When `scanUnitChars` consumes at least one character, the rest is
strictly shorter than the input. -/
theorem scanUnitChars_snd_lt (l : List Char) (h : ¬ (scanUnitChars l).1.isEmpty = true) :
    (scanUnitChars l).2.length < l.length := by
  cases l with
  | nil => simp [scanUnitChars] at h
  | cons c cs =>
    simp only [scanUnitChars] at h ⊢
    by_cases hc : c = '.' ∨ isDigitChar c
    · simp [hc] at h
    · simp [hc]
      exact Nat.lt_succ_of_le (scanUnitChars_snd_length cs)

/-- Length of the rest of `durFracScan` is bounded by the input length. -/
theorem durFracScan_length (l : List Char) : (durFracScan l).2.2.2.length ≤ l.length := by
  cases l with
  | nil => simp [durFracScan]
  | cons c cs =>
    by_cases hc : c = '.'
    · subst hc
      simp only [durFracScan]
      exact Nat.le_succ_of_le (scanDigits_snd_length cs)
    · cases c <;> simp_all [durFracScan]

/-- A successfully parsed duration term consumes at least one character. -/
theorem goDurTerm_rest_lt (l : List Char) (v : Nat) (rest : List Char)
    (h : goDurTerm l = .ok (v, rest)) : rest.length < l.length := by
  simp only [goDurTerm] at h
  by_cases h1 : (scanDigits l).1.isEmpty && !(durFracScan (scanDigits l).2).2.2.1
  · simp [h1] at h
  · simp only [h1, Bool.false_eq_true, if_false] at h
    by_cases h2 : (scanUnitChars (durFracScan (scanDigits l).2).2.2.2).1.isEmpty
    · simp [h2] at h
    · simp only [h2, Bool.false_eq_true, if_false] at h
      cases h3 : unitScale (String.mk (scanUnitChars (durFracScan (scanDigits l).2).2.2.2).1) with
      | none => simp [h3] at h
      | some unit =>
        simp only [h3, Except.ok.injEq, Prod.mk.injEq] at h
        have hrest : rest = (scanUnitChars (durFracScan (scanDigits l).2).2.2.2).2 := h.2.symm
        subst hrest
        calc (scanUnitChars (durFracScan (scanDigits l).2).2.2.2).2.length
            < (durFracScan (scanDigits l).2).2.2.2.length := scanUnitChars_snd_lt _ h2
          _ ≤ (scanDigits l).2.length := durFracScan_length _
          _ ≤ l.length := scanDigits_snd_length l

/-- Term loop of `time.ParseDuration`: while input remains, parse one term
and accumulate. The extra fuel argument makes the recursion structural; the
fuel-exhaustion branch is unreachable whenever the fuel bounds the input
length, because every successfully parsed term consumes at least one
character (`goDurTerm_rest_lt`, `goDurLoop_fuel`). -/
def goDurLoop : Nat → List Char → Nat → Except String Nat
  | _, [], d => .ok d
  | 0, _ :: _, _ => .error "invalid duration"
  | fuel + 1, c :: cs, d =>
    match goDurTerm (c :: cs) with
    | .error e => .error e
    | .ok (v, rest) => goDurLoop fuel rest (d + v)

/-- The term loop does not depend on the fuel as long as the fuel bounds the
input length, so the fuel-exhaustion branch never classifies an input. -/
theorem goDurLoop_fuel (f1 f2 : Nat) : ∀ (l : List Char) (d : Nat),
    l.length ≤ f1 → l.length ≤ f2 → goDurLoop f1 l d = goDurLoop f2 l d := by
  induction f1 generalizing f2 with
  | zero =>
    intro l d h1 _
    cases l with
    | nil => cases f2 <;> rfl
    | cons c cs => simp at h1
  | succ f ihf =>
    intro l d h1 h2
    cases l with
    | nil => cases f2 <;> rfl
    | cons c cs =>
      cases f2 with
      | zero => simp at h2
      | succ g =>
        simp only [goDurLoop]
        cases hterm : goDurTerm (c :: cs) with
        | error e => rfl
        | ok vr =>
          rcases vr with ⟨v, rest⟩
          have hlt := goDurTerm_rest_lt (c :: cs) v rest hterm
          simp only [List.length_cons] at hlt h1 h2
          exact ihf g rest (d + v) (by omega) (by omega)

/-- Model of Go `time.ParseDuration`: optional sign, the special case `"0"`,
then one or more `digits [. digits] unit` terms summed in nanoseconds, with
signed 64-bit range checking. Overflow checks are performed on the final
total, which classifies exactly the same inputs as errors as the incremental
checks of the Go source, because every term is nonnegative and the total is
monotone over the loop. -/
def goParseDuration (s : String) : Except String Int :=
  let (neg, l1) :=
    match s.data with
    | c :: t =>
      if c = '-' then (true, t)
      else if c = '+' then (false, t)
      else (false, c :: t)
    | [] => (false, [])
  if l1 = ['0'] then .ok 0
  else if l1 = [] then .error "invalid duration"
  else
    match goDurLoop l1.length l1 0 with
    | .error e => .error e
    | .ok d =>
      if d > 2 ^ 63 then .error "invalid duration"
      else if neg then .ok (-(d : Int))
      else if d > 2 ^ 63 - 1 then .error "invalid duration"
      else .ok (d : Int)

/-- Model of `setFromString` (settings.go): dispatch on the dynamic type of
the destination, parse the raw string with the standard-library parser for
that kind, and return the new cell value; a parse failure or an unsupported
destination kind is an error and the cell is not written. -/
def setFromString (cell : GoValue) (vStr : String) : Except GoError GoValue :=
  match cell with
  | .vStr _ => .ok (.vStr vStr)
  | .vInt _ =>
    match goAtoi vStr with
    | .error m => .error (.typeError m)
    | .ok n => .ok (.vInt n)
  | .vFloat _ =>
    match goParseFloat vStr with
    | .error m => .error (.typeError m)
    | .ok q => .ok (.vFloat q)
  | .vBool _ =>
    match goParseBool vStr with
    | .error m => .error (.typeError m)
    | .ok b => .ok (.vBool b)
  | .vDur _ =>
    match goParseDuration vStr with
    | .error m => .error (.typeError m)
    | .ok n => .ok (.vDur n)
  | .vOther => .error .errUnsupportedType

/-- Process-environment snapshot: the association list backing the model of
`os.LookupEnv`. -/
def EnvMap : Type := List (String × String)

/-- Model of `os.LookupEnv` over an environment snapshot. -/
def envLookup : EnvMap → String → Option String
  | [], _ => none
  | (k, v) :: rest, name => if k = name then some v else envLookup rest name

/-- Model of `parseEnv` (settings.go): look the variable up, absence is the
`ErrNotFound` sentinel, presence coerces the raw string into the cell. -/
def parseEnv (envm : EnvMap) (cell : GoValue) (envVar : String) : Except GoError GoValue :=
  match envLookup envm envVar with
  | none => .error .errNotFound
  | some vStr => setFromString cell vStr

/-- Token classification for one argument, as `flag.FlagSet.parseOne` sees
it: terminate parsing, report bad syntax, or a flag name with an optional
inline `=value`. -/
inductive FlagTok
  | stop
  | bad
  | name (nm : String) (val : Option String)
  deriving DecidableEq, Repr

/-- Split a character list at the first `=`, as the name/value split of
`flag.FlagSet.parseOne` does. -/
def splitAtEqChar : List Char → List Char × Option (List Char)
  | [] => ([], none)
  | '=' :: rest => ([], some rest)
  | c :: rest =>
    let (a, b) := splitAtEqChar rest
    (c :: a, b)

/-- Classify the part of an argument after its leading minuses: leading `-`
or `=` is bad flag syntax, otherwise split off an inline value. -/
def flagName (l : List Char) : FlagTok :=
  match l with
  | [] => .bad
  | c :: _ =>
    if c = '-' ∨ c = '=' then .bad
    else
      match splitAtEqChar l with
      | (nm, none) => .name (String.mk nm) none
      | (nm, some v) => .name (String.mk nm) (some (String.mk v))

/-- Classify one raw argument: arguments of length below two or without a
leading minus stop flag parsing, bare `-` and `--` stop it, otherwise one or
two minuses are stripped and the rest is a flag name. -/
def flagClassify (a : String) : FlagTok :=
  match a.data with
  | [] => .stop
  | ['-'] => .stop
  | ['-', '-'] => .stop
  | '-' :: '-' :: c :: cs => flagName (c :: cs)
  | '-' :: c :: cs => flagName (c :: cs)
  | _ => .stop

/-- Model of `flag.FlagSet.Parse` specialised to the single string flag
`fname` that `parseFlag` defines: iterate `parseOne`, update the flag value
on each match (an inline `=value` or the following argument), error on bad
syntax, on any undefined flag name (including the built-in help request) and
on a missing value; stop at the first non-flag argument. Returns the final
value of the string variable bound to `fname`. -/
def flagLoop (fname : String) (cur : String) : List String → Except String String
  | [] => .ok cur
  | a :: rest =>
    match flagClassify a with
    | .stop => .ok cur
    | .bad => .error "bad flag syntax"
    | .name nm val =>
      if nm = fname then
        match val with
        | some v => flagLoop fname v rest
        | none =>
          match rest with
          | v :: rest2 => flagLoop fname v rest2
          | [] => .error "flag needs an argument"
      else
        if nm = "help" ∨ nm = "h" then .error "flag: help requested"
        else .error "flag provided but not defined"

/-- Model of `parseFlag` (settings.go): run the flag set over the argument
list; a parse error is returned as is, an absent flag or an empty matched
value is the `ErrNotFound` sentinel, and a present non-empty value is coerced
into the cell. -/
def parseFlag (cell : GoValue) (f : String) (args : List String) : Except GoError GoValue :=
  match flagLoop f "" args with
  | .error m => .error (.flagError m)
  | .ok vStr =>
    if vStr = "" then .error .errNotFound
    else setFromString cell vStr

/-- Result of the external goccy/go-yaml `Path.Read` call, as `parseYAML`
observes it: a decoded value, the node-not-found error of that library, or
any other read error (malformed document, wrong value kind). -/
inductive YamlReadResult
  | ok (v : GoValue)
  | notFoundNode
  | readErr (msg : String)
  deriving DecidableEq, Repr

/-- Interface of the external goccy/go-yaml collaborator, exactly the two
calls `parseYAML` makes: `pathStringOk` tells whether `yaml.PathString`
accepts the path syntax, and `read` is `Path.Read` on a path, a document and
the destination kind. The engine is verified for every implementation of
this interface. -/
structure YamlLib where
  pathStringOk : String → Bool
  read : String → String → GoKind → YamlReadResult

/-- Model of `parseYAML` (settings.go): an empty document is the
`ErrNotFound` sentinel before the external library is ever consulted; a path
rejected by `yaml.PathString` is that error; and a `Path.Read` failure is
returned as is. The node-not-found failure of goccy/go-yaml is a distinct
error value of that library which does not wrap this package sentinel
`ErrNotFound`, hence the `yamlError` constructor. -/
def parseYAML (lib : YamlLib) (cell : GoValue) (yamlPath : String) (yamlData : String) :
    Except GoError GoValue :=
  if yamlData.length = 0 then .error .errNotFound
  else if ¬ lib.pathStringOk yamlPath then .error (.yamlError "invalid path string")
  else
    match lib.read yamlPath yamlData cell.kind with
    | .ok v => .ok v
    | .notFoundNode => .error (.yamlError "node not found")
    | .readErr m => .error (.yamlError m)

/-- One configured source lookup of a Setting. In the source these are the
closures appended to `Setting.parseFuncs` by the `YAML`, `Env` and `Flag`
builder calls; each closure is determined by the one string captured at
registration time, which this sum records. -/
inductive Source
  | yaml (path : String)
  | env (name : String)
  | flag (fname : String)
  deriving DecidableEq, Repr

/-- Model of the `Setting` struct: the destination (`none` models a nil
pointer, `some cell` the pointee of a supported or unsupported dynamic
type), the ordered source list, the optional default value and the required
flag. -/
structure Setting where
  v : Option GoValue
  parseFuncs : List Source
  defaultValue : Option GoValue
  required : Bool
  deriving DecidableEq, Repr

/-- Model of the `Parser` struct: the session source data and the registered
settings. `args` is `Option` to distinguish a nil argument slice from an
empty one; `envPfx` models the field `envPrefix` of the source. -/
structure Parser where
  yaml : String
  envPfx : String
  args : Option (List String)
  settings : List Setting
  deriving DecidableEq, Repr

/-- Run one source closure against the session data, as the closures built by
the `YAML`, `Env` and `Flag` builder calls do: the environment name is
prefixed with the session prefix at lookup time, the flag parser runs over
the session argument list, the YAML path is evaluated against the session
document text. -/
def runSource (lib : YamlLib) (envm : EnvMap) (p : Parser) (cell : GoValue) :
    Source → Except GoError GoValue
  | .yaml path => parseYAML lib cell path p.yaml
  | .env name => parseEnv envm cell (p.envPfx ++ name)
  | .flag fname => parseFlag cell fname (p.args.getD [])

/-- Result of the per-setting source loop `Parser.parse`: a matched source
with the updated cell, no source matched, or a non-`ErrNotFound` error that
aborts the setting. -/
inductive ParseRes
  | found (cell : GoValue)
  | notFound
  | failed (e : GoError)
  deriving DecidableEq, Repr

/-- Model of `Parser.parse` (settings.go): try each source in list order; an
error satisfying `errors.Is(err, ErrNotFound)` continues with the next
source, any other error aborts, and the first success stops the loop. -/
def Parser.parse (lib : YamlLib) (envm : EnvMap) (p : Parser) (cell : GoValue) :
    List Source → ParseRes
  | [] => .notFound
  | f :: rest =>
    match runSource lib envm p cell f with
    | .error e =>
      if errorsIsNotFound e then Parser.parse lib envm p cell rest
      else .failed e
    | .ok c => .found c

/-- Outcome of a call that may return an error or panic. -/
inductive Outcome
  | ok
  | errored (e : GoError)
  | panicked
  deriving DecidableEq, Repr

/-- Application of a stored default value to the destination cell, the type
switch on `s.v` in `Parser.set` with the unchecked interface type assertions
on `s.defaultValue`: matching kinds write the default as is, an unsupported
destination kind is `ErrUnsupportedType`, and a kind mismatch is a failed
type assertion, which panics. -/
def applyDefault (cell : GoValue) (d : GoValue) : Option GoValue × Outcome :=
  match cell, d with
  | .vStr _, .vStr x => (some (.vStr x), .ok)
  | .vInt _, .vInt x => (some (.vInt x), .ok)
  | .vFloat _, .vFloat x => (some (.vFloat x), .ok)
  | .vBool _, .vBool x => (some (.vBool x), .ok)
  | .vDur _, .vDur x => (some (.vDur x), .ok)
  | .vOther, _ => (some .vOther, .errored .errUnsupportedType)
  | c, _ => (some c, .panicked)

/-- Model of `Parser.set` (settings.go): a nil destination is
`ErrNilPointer`; then the source loop runs; a loop error is returned; if no
source matched and the setting is required, `ErrRequiredFieldNotFound`; if
no source matched and a default value is stored, the default is applied;
otherwise the cell is left as it was. Returns the final cell next to the
outcome. -/
def Parser.set (lib : YamlLib) (envm : EnvMap) (p : Parser) (s : Setting) :
    Option GoValue × Outcome :=
  match s.v with
  | none => (none, .errored .errNilPointer)
  | some cell =>
    match Parser.parse lib envm p cell s.parseFuncs with
    | .failed e => (some cell, .errored e)
    | .found c => (some c, .ok)
    | .notFound =>
      if s.required then (some cell, .errored .errRequiredFieldNotFound)
      else
        match s.defaultValue with
        | none => (some cell, .ok)
        | some d => applyDefault cell d

/-- Loop body of `Parser.Parse` (settings.go): apply `Parser.set` to each
registered setting in registration order; the first error or panic stops the
loop, and the destinations of the remaining settings are left at their prior
values. Returns the final destination cells in registration order and the
loop outcome. -/
def parseAll (lib : YamlLib) (envm : EnvMap) (p : Parser) :
    List Setting → List (Option GoValue) × Outcome
  | [] => ([], .ok)
  | s :: rest =>
    match Parser.set lib envm p s with
    | (c, .ok) =>
      let (cs, o) := parseAll lib envm p rest
      (c :: cs, o)
    | (c, .errored e) => (c :: rest.map (fun t => t.v), .errored e)
    | (c, .panicked) => (c :: rest.map (fun t => t.v), .panicked)

/-- Model of `Parser.Reset` (settings.go): clear the document text, the
environment prefix, the argument slice (to nil) and the registered settings
list. -/
def Parser.Reset (_p : Parser) : Parser :=
  { yaml := "", envPfx := "", args := none, settings := [] }

/-- Result of a session-level resolution pass: the parser state after the
call, the final destination cells of the registered settings in registration
order, and the outcome. -/
structure ParseResult where
  parser : Parser
  dests : List (Option GoValue)
  outcome : Outcome
  deriving DecidableEq, Repr

/-- Model of `Parser.Parse` (settings.go): run the loop over the registered
settings; on the first setting error call `Reset` and return that error; on
success of the whole pass call `Reset` and return nil. A panic propagates
out of the loop before any `Reset` runs, leaving the parser state as it
was. -/
def Parser.Parse (lib : YamlLib) (envm : EnvMap) (p : Parser) : ParseResult :=
  match parseAll lib envm p p.settings with
  | (cells, .ok) => { parser := p.Reset, dests := cells, outcome := .ok }
  | (cells, .errored e) => { parser := p.Reset, dests := cells, outcome := .errored e }
  | (cells, .panicked) => { parser := p, dests := cells, outcome := .panicked }

/-- Model of `Parser.Add` (settings.go): append a fresh setting holding the
destination reference, with no sources, no default and not required, and
hand it out for builder-chain configuration. In the source the returned
pointer aliases the list entry, so the chained builder calls below configure
the registered setting before `Parse` runs; the theorems pass the fully
configured setting in `Parser.settings` accordingly. -/
def newSetting (v : Option GoValue) : Setting :=
  { v := v, parseFuncs := [], defaultValue := none, required := false }

/-- Model of the builder call `Setting.Env`: append the environment source
closure for the given name. -/
def Setting.Env (s : Setting) (envVar : String) : Setting :=
  { s with parseFuncs := s.parseFuncs ++ [.env envVar] }

/-- Model of the builder call `Setting.YAML`: the source indexes the first
byte of the path to test for the root marker, so the empty path panics
(string index out of range), modelled as `none`; otherwise `$.` is prepended
when the path does not start with `$`, and the document source closure is
appended. -/
def Setting.YAML (s : Setting) (yamlPath : String) : Option Setting :=
  match yamlPath.data with
  | [] => none
  | c :: _ =>
    let path := if c ≠ '$' then "$." ++ yamlPath else yamlPath
    some { s with parseFuncs := s.parseFuncs ++ [.yaml path] }

/-- Model of the builder call `Setting.Flag`: append the command-line flag
source closure for the given name. -/
def Setting.Flag (s : Setting) (fname : String) : Setting :=
  { s with parseFuncs := s.parseFuncs ++ [.flag fname] }

/-- Model of the builder call `Setting.Required`. -/
def Setting.Required (s : Setting) (isRequired : Bool) : Setting :=
  { s with required := isRequired }

/-- Model of the builder call `Setting.Default`: store the value with no
check of any kind. -/
def Setting.Default (s : Setting) (d : GoValue) : Setting :=
  { s with defaultValue := some d }

/-- A parser with no source data and no registered settings, the state
`Parser.Reset` produces. -/
def emptyParser : Parser :=
  { yaml := "", envPfx := "", args := none, settings := [] }

/-- Concrete instance of the external goccy/go-yaml collaborator for the
flat document `option1: test` used by the repository tests: the only
existing path is `$.option1`, holding the string `test`; every other path in
that document is the node-not-found failure; any other document is reported
malformed. -/
def yamlLibOption1 : YamlLib :=
  { pathStringOk := fun _ => true
    read := fun path doc kind =>
      if doc = "option1: test" then
        if path = "$.option1" ∧ kind = .kStr then .ok (.vStr "test")
        else .notFoundNode
      else .readErr "mapping was expected" }

/-- Environment snapshot with the single variable `OPTION1=envv`. -/
def envOption1 : EnvMap := [("OPTION1", "envv")]

/-- C1: for every Setting whose ordered source list contains several sources
that would all match, resolution writes the value of the first source in the
list (registration order) into the destination and never consults any later
source: the result is the first source value, whatever the later sources
are; in particular for the order [document, environment, flag] the resolved
value equals the document value. -/
theorem firstSourceWins (lib : YamlLib) (envm : EnvMap) (p : Parser) (s : Setting)
    (cell v : GoValue) (src : Source) (rest : List Source)
    (hv : s.v = some cell) (hfuncs : s.parseFuncs = src :: rest)
    (hfirst : runSource lib envm p cell src = .ok v)
    (hrest : ∀ t ∈ rest, ∃ w, runSource lib envm p cell t = .ok w) :
    Parser.parse lib envm p cell (src :: rest) = .found v ∧
    Parser.set lib envm p s = (some v, .ok) := by
  have hparse : Parser.parse lib envm p cell (src :: rest) = .found v := by
    simp [Parser.parse, hfirst]
  refine ⟨hparse, ?_⟩
  simp [Parser.set, hv, hfuncs, hparse]

/-- Witness for C1: with the test document `option1: test`, the environment
variable `OPTION1=envv` and the argument `--option1=flagv` all matching, the
setting with source order [document, environment, flag] resolves to the
document value `test`. -/
theorem firstSourceWins_witness :
    Parser.set yamlLibOption1 envOption1
      { yaml := "option1: test", envPfx := "", args := some ["--option1=flagv"],
        settings := [] }
      { v := some (.vStr ""),
        parseFuncs := [.yaml "$.option1", .env "OPTION1", .flag "option1"],
        defaultValue := none, required := false } =
      (some (.vStr "test"), .ok) := by
  have h := firstSourceWins yamlLibOption1 envOption1
    { yaml := "option1: test", envPfx := "", args := some ["--option1=flagv"],
      settings := [] }
    { v := some (.vStr ""),
      parseFuncs := [.yaml "$.option1", .env "OPTION1", .flag "option1"],
      defaultValue := none, required := false }
    (.vStr "") (.vStr "test") (.yaml "$.option1") [.env "OPTION1", .flag "option1"]
    rfl rfl rfl
    (by
      intro t ht
      simp only [List.mem_cons, List.not_mem_nil, or_false] at ht
      rcases ht with rfl | rfl
      · exact ⟨.vStr "envv", rfl⟩
      · exact ⟨.vStr "flagv", rfl⟩)
  exact h.2

/-- C2: for every required Setting none of whose configured sources matches,
resolution of that Setting fails with `ErrRequiredFieldNotFound`, the
destination cell is left unmodified, and a stored default value is not
applied (the conclusion holds whatever `defaultValue` is: the required check
precedes the default fallback in `Parser.set`). -/
theorem requiredNotFoundFails (lib : YamlLib) (envm : EnvMap) (p : Parser) (s : Setting)
    (cell : GoValue) (hv : s.v = some cell) (hreq : s.required = true)
    (hnf : Parser.parse lib envm p cell s.parseFuncs = .notFound) :
    Parser.set lib envm p s = (some cell, .errored .errRequiredFieldNotFound) := by
  simp [Parser.set, hv, hnf, hreq]

/-- Witness for C2: a required string setting with one unmatched environment
source and a stored default fails with `ErrRequiredFieldNotFound`, leaving
the destination at its prior value and the default unapplied. -/
theorem requiredNotFoundFails_witness :
    Parser.set yamlLibOption1 [] emptyParser
      { v := some (.vStr "prior"), parseFuncs := [.env "MISSING_OPTION"],
        defaultValue := some (.vStr "dflt"), required := true } =
      (some (.vStr "prior"), .errored .errRequiredFieldNotFound) :=
  requiredNotFoundFails yamlLibOption1 [] emptyParser
    { v := some (.vStr "prior"), parseFuncs := [.env "MISSING_OPTION"],
      defaultValue := some (.vStr "dflt"), required := true }
    (.vStr "prior") rfl rfl (by decide)

/-- C5: when the session document text is empty, a document-path source
lookup is the `ErrNotFound` sentinel, never another error: the external
library is not consulted, and the source loop continues with the next
configured source of the Setting. -/
theorem emptyDocumentIsNotFound (lib : YamlLib) (envm : EnvMap) (p : Parser)
    (cell : GoValue) (path : String) (rest : List Source) (hdoc : p.yaml = "") :
    parseYAML lib cell path p.yaml = .error .errNotFound ∧
    Parser.parse lib envm p cell (.yaml path :: rest) =
      Parser.parse lib envm p cell rest := by
  constructor
  · simp [parseYAML, hdoc]
  · simp [Parser.parse, runSource, parseYAML, hdoc, errorsIsNotFound]

/-- Witness for C5: with an empty document, a setting sourced from a
document path and then an environment variable falls through to the
environment and resolves to its value. -/
theorem emptyDocumentIsNotFound_witness :
    parseYAML yamlLibOption1 (.vStr "") "$.option1" "" = .error .errNotFound ∧
    Parser.parse yamlLibOption1 envOption1
      { yaml := "", envPfx := "", args := none, settings := [] } (.vStr "")
      [.yaml "$.option1", .env "OPTION1"] = .found (.vStr "envv") := by
  have h := emptyDocumentIsNotFound yamlLibOption1 envOption1
    { yaml := "", envPfx := "", args := none, settings := [] }
    (.vStr "") "$.option1" [.env "OPTION1"] rfl
  refine ⟨h.1, ?_⟩
  rw [h.2]
  decide

/-- C9: the `Setting.YAML` builder indexes the first byte of the path to
test for the root marker without a nonemptiness check, so the call with the
empty path panics (string index out of range), modelled as `none`: no
configured setting is produced and no error value is returned. -/
theorem yamlBuilderEmptyPathPanics (s : Setting) : Setting.YAML s "" = none := by
  simp [Setting.YAML]

/-- C10: after every resolution pass that succeeds or returns an error, the
session is fully reset: the document text and environment prefix are empty,
the argument slice is nil and the registered-settings list is empty, so a
later pass sees an unconfigured session. (The remaining outcome, a panic,
propagates before `Reset` runs and is excluded by the hypothesis.) -/
theorem sessionResetAfterPass (lib : YamlLib) (envm : EnvMap) (p : Parser)
    (h : (Parser.Parse lib envm p).outcome ≠ .panicked) :
    (Parser.Parse lib envm p).parser =
      { yaml := "", envPfx := "", args := none, settings := [] } := by
  unfold Parser.Parse at h ⊢
  rcases hall : parseAll lib envm p p.settings with ⟨cells, o⟩
  cases o <;> simp_all [Parser.Reset]

/-- Witness for C10: a successful pass over a session with a document,
a prefix, arguments and one registered setting leaves the fully cleared
session state. -/
theorem sessionResetAfterPass_witness :
    (Parser.Parse yamlLibOption1 envOption1
      { yaml := "option1: test", envPfx := "PRE_", args := some ["--a=b"],
        settings := [{ v := some (.vStr ""), parseFuncs := [.yaml "$.option1"],
                       defaultValue := none, required := false }] }).parser =
      { yaml := "", envPfx := "", args := none, settings := [] } :=
  sessionResetAfterPass yamlLibOption1 envOption1
    { yaml := "option1: test", envPfx := "PRE_", args := some ["--a=b"],
      settings := [{ v := some (.vStr ""), parseFuncs := [.yaml "$.option1"],
                     defaultValue := none, required := false }] }
    (by decide)

/-- Helper: a prefix of settings that all resolve successfully contributes
its updated cells and leaves the outcome to the remaining settings. -/
theorem parseAll_append_ok (lib : YamlLib) (envm : EnvMap) (p : Parser)
    (pre rest : List Setting)
    (hpre : ∀ t ∈ pre, (Parser.set lib envm p t).2 = .ok) :
    parseAll lib envm p (pre ++ rest) =
      (pre.map (fun t => (Parser.set lib envm p t).1) ++ (parseAll lib envm p rest).1,
       (parseAll lib envm p rest).2) := by
  induction pre with
  | nil => simp
  | cons t ts ih =>
    have ht : (Parser.set lib envm p t).2 = .ok := hpre t (by simp)
    have hts : ∀ u ∈ ts, (Parser.set lib envm p u).2 = .ok := by
      intro u hu
      exact hpre u (by simp [hu])
    rcases hset : Parser.set lib envm p t with ⟨c, o⟩
    have ho : o = .ok := by rw [hset] at ht; exact ht
    subst ho
    simp only [List.cons_append, parseAll, hset, List.append_eq]
    rw [ih hts]
    simp [hset]

/-- C8: for every registered Setting whose destination reference is nil, the
resolution pass fails with `ErrNilPointer` when that Setting is reached (all
earlier settings having resolved): the nil destination is detected in
`Parser.set` and surfaced as an error of the pass, not a panic. -/
theorem nilDestinationFailsPass (lib : YamlLib) (envm : EnvMap) (p : Parser)
    (pre : List Setting) (s : Setting) (post : List Setting)
    (hsplit : p.settings = pre ++ s :: post) (hnil : s.v = none)
    (hpre : ∀ t ∈ pre, (Parser.set lib envm p t).2 = .ok) :
    Parser.set lib envm p s = (none, .errored .errNilPointer) ∧
    (Parser.Parse lib envm p).outcome = .errored .errNilPointer := by
  have hset : Parser.set lib envm p s = (none, .errored .errNilPointer) := by
    simp [Parser.set, hnil]
  refine ⟨hset, ?_⟩
  have hall := parseAll_append_ok lib envm p pre (s :: post) hpre
  unfold Parser.Parse
  rw [hsplit, hall]
  simp only [parseAll, hset]

/-- Witness for C8: a session whose first setting resolves from the test
document and whose second setting has a nil destination fails the pass with
`ErrNilPointer`. -/
theorem nilDestinationFailsPass_witness :
    (Parser.Parse yamlLibOption1 envOption1
      { yaml := "option1: test", envPfx := "", args := none,
        settings := [{ v := some (.vStr ""), parseFuncs := [.yaml "$.option1"],
                       defaultValue := none, required := false },
                     { v := none, parseFuncs := [.env "OPTION1"],
                       defaultValue := none, required := false }] }).outcome =
      .errored .errNilPointer :=
  (nilDestinationFailsPass yamlLibOption1 envOption1
    { yaml := "option1: test", envPfx := "", args := none,
      settings := [{ v := some (.vStr ""), parseFuncs := [.yaml "$.option1"],
                     defaultValue := none, required := false },
                   { v := none, parseFuncs := [.env "OPTION1"],
                     defaultValue := none, required := false }] }
    [{ v := some (.vStr ""), parseFuncs := [.yaml "$.option1"],
       defaultValue := none, required := false }]
    { v := none, parseFuncs := [.env "OPTION1"],
      defaultValue := none, required := false }
    [] rfl rfl
    (by
      intro t ht
      simp only [List.mem_singleton] at ht
      subst ht
      decide)).2

/-- C4: the session-level pass iterates the registered settings in
registration order and stops at the first setting-level failure, propagating
that error and leaving the destination of every later-registered setting
untouched; when every setting resolves, the pass succeeds and the
registered-settings list is cleared for reuse. -/
theorem sessionFailFastThenReset (lib : YamlLib) (envm : EnvMap) :
    (∀ (p : Parser) (pre : List Setting) (s : Setting) (post : List Setting)
       (e : GoError),
       p.settings = pre ++ s :: post →
       (∀ t ∈ pre, (Parser.set lib envm p t).2 = .ok) →
       (Parser.set lib envm p s).2 = .errored e →
       (Parser.Parse lib envm p).outcome = .errored e ∧
       (Parser.Parse lib envm p).dests.drop (pre.length + 1) =
         post.map (fun t => t.v)) ∧
    (∀ p : Parser,
       (∀ t ∈ p.settings, (Parser.set lib envm p t).2 = .ok) →
       (Parser.Parse lib envm p).outcome = .ok ∧
       (Parser.Parse lib envm p).parser.settings = []) := by
  constructor
  · intro p pre s post e hsplit hpre hfail
    rcases hset : Parser.set lib envm p s with ⟨c, o⟩
    have ho : o = .errored e := by rw [hset] at hfail; exact hfail
    subst ho
    have hall := parseAll_append_ok lib envm p pre (s :: post) hpre
    have htail : parseAll lib envm p (s :: post) =
        (c :: post.map (fun t => t.v), .errored e) := by
      simp only [parseAll, hset]
    rw [htail] at hall
    unfold Parser.Parse
    rw [hsplit, hall]
    refine ⟨rfl, ?_⟩
    show (pre.map (fun t => (Parser.set lib envm p t).1) ++
        c :: post.map (fun t => t.v)).drop (pre.length + 1) = post.map (fun t => t.v)
    have key : pre.map (fun t => (Parser.set lib envm p t).1) ++
        c :: post.map (fun t => t.v) =
        (pre.map (fun t => (Parser.set lib envm p t).1) ++ [c]) ++
          post.map (fun t => t.v) := by
      simp
    rw [key]
    have hlen : pre.length + 1 =
        (pre.map (fun t => (Parser.set lib envm p t).1) ++ [c]).length := by simp
    rw [hlen]
    exact List.drop_left _ _
  · intro p hall
    have h := parseAll_append_ok lib envm p p.settings [] hall
    simp only [List.append_nil, parseAll] at h
    unfold Parser.Parse
    rw [h]
    exact ⟨rfl, rfl⟩

/-- Witness for C4: the first part at a session whose first setting fails as
required-not-found, leaving the second destination untouched, and the second
part at a session whose single setting resolves from the document. -/
theorem sessionFailFastThenReset_witness :
    ((Parser.Parse yamlLibOption1 []
      { yaml := "", envPfx := "", args := none,
        settings := [{ v := some (.vStr ""), parseFuncs := [.env "MISSING"],
                       defaultValue := none, required := true },
                     { v := some (.vInt 7), parseFuncs := [],
                       defaultValue := none, required := false }] }).outcome =
      .errored .errRequiredFieldNotFound ∧
     (Parser.Parse yamlLibOption1 []
      { yaml := "", envPfx := "", args := none,
        settings := [{ v := some (.vStr ""), parseFuncs := [.env "MISSING"],
                       defaultValue := none, required := true },
                     { v := some (.vInt 7), parseFuncs := [],
                       defaultValue := none, required := false }] }).dests.drop 1 =
      [some (.vInt 7)]) ∧
    ((Parser.Parse yamlLibOption1 envOption1
      { yaml := "option1: test", envPfx := "", args := none,
        settings := [{ v := some (.vStr ""), parseFuncs := [.yaml "$.option1"],
                       defaultValue := none, required := false }] }).outcome = .ok ∧
     (Parser.Parse yamlLibOption1 envOption1
      { yaml := "option1: test", envPfx := "", args := none,
        settings := [{ v := some (.vStr ""), parseFuncs := [.yaml "$.option1"],
                       defaultValue := none, required := false }] }).parser.settings =
      []) := by
  constructor
  · exact (sessionFailFastThenReset yamlLibOption1 []).1
      { yaml := "", envPfx := "", args := none,
        settings := [{ v := some (.vStr ""), parseFuncs := [.env "MISSING"],
                       defaultValue := none, required := true },
                     { v := some (.vInt 7), parseFuncs := [],
                       defaultValue := none, required := false }] }
      [] { v := some (.vStr ""), parseFuncs := [.env "MISSING"],
           defaultValue := none, required := true }
      [{ v := some (.vInt 7), parseFuncs := [], defaultValue := none,
         required := false }]
      .errRequiredFieldNotFound rfl (by intro t ht; simp at ht) (by decide)
  · exact (sessionFailFastThenReset yamlLibOption1 envOption1).2
      { yaml := "option1: test", envPfx := "", args := none,
        settings := [{ v := some (.vStr ""), parseFuncs := [.yaml "$.option1"],
                       defaultValue := none, required := false }] }
      (by
        intro t ht
        simp only [List.mem_singleton] at ht
        subst ht
        decide)

/-- C3 counterexample: the `Default` builder performs no registration-time
kind check — it accepts a string default for an integer destination and
stores it unchanged — and applying that default at resolution time fails:
the interface type assertion in `Parser.set` panics, refuting "a default
whose kind does not match the destination kind is detected at registration
time (so applying the default at resolution time can never fail)". -/
theorem defaultKindMismatchPanics :
    (newSetting (some (.vInt 0))).Default (.vStr "oops") =
      { v := some (.vInt 0), parseFuncs := [],
        defaultValue := some (.vStr "oops"), required := false } ∧
    Parser.set yamlLibOption1 [] emptyParser
      ((newSetting (some (.vInt 0))).Default (.vStr "oops")) =
      (some (.vInt 0), .panicked) :=
  ⟨rfl, by decide⟩

/-- C3 (amended): with no matching source, a non-required Setting with a
stored default receives the default value exactly, with no coercion, when
the default kind equals the (supported) destination kind; the kind is not
checked at registration time — the `Default` builder stores any value
unchecked — and a resolution-time kind mismatch panics on the type
assertion instead of being impossible. -/
theorem defaultAppliedExactly :
    (∀ (s : Setting) (d : GoValue),
       Setting.Default s d = { s with defaultValue := some d }) ∧
    (∀ (lib : YamlLib) (envm : EnvMap) (p : Parser) (s : Setting)
       (cell d : GoValue),
       s.v = some cell →
       Parser.parse lib envm p cell s.parseFuncs = .notFound →
       s.required = false →
       s.defaultValue = some d →
       d.kind = cell.kind →
       cell.kind ≠ .kOther →
       Parser.set lib envm p s = (some d, .ok)) := by
  constructor
  · intro s d
    rfl
  · intro lib envm p s cell d hv hnf hreq hd hkind hsupp
    simp only [Parser.set, hv, hnf, hreq, hd]
    cases cell <;> cases d <;>
      simp_all [GoValue.kind, applyDefault]

/-- Witness for C3 (amended): an integer setting with one unmatched
environment source and the integer default 42 resolves to 42 exactly. -/
theorem defaultAppliedExactly_witness :
    Parser.set yamlLibOption1 [] emptyParser
      { v := some (.vInt 0), parseFuncs := [.env "MISSING_OPTION"],
        defaultValue := some (.vInt 42), required := false } =
      (some (.vInt 42), .ok) :=
  defaultAppliedExactly.2 yamlLibOption1 [] emptyParser
    { v := some (.vInt 0), parseFuncs := [.env "MISSING_OPTION"],
      defaultValue := some (.vInt 42), required := false }
    (.vInt 0) (.vInt 42) rfl (by decide) rfl rfl rfl (by decide)

/-- A session holding the well-formed document `option1: test` and one
string setting sourced from the nonexistent path `$.missing` and then from
the environment variable `OPTION1`. -/
def missingPathParser : Parser :=
  { yaml := "option1: test", envPfx := "", args := none,
    settings := [{ v := some (.vStr ""),
                   parseFuncs := [.yaml "$.missing", .env "OPTION1"],
                   defaultValue := none, required := false }] }

/-- C6 counterexample: with the non-empty well-formed document
`option1: test` and the path `$.missing` that does not exist in it, the
document source lookup is the node-not-found error of the external library,
not the package `ErrNotFound` sentinel, so the source loop aborts and the
pass fails with that error — even though the next configured source
(`OPTION1` in the environment) would have matched — refuting "that source
lookup is NotFound: resolution continues to the next configured source
instead of aborting with an error". -/
theorem missingPathAborts_counterexample :
    Parser.parse yamlLibOption1 envOption1 missingPathParser (.vStr "")
      [.yaml "$.missing", .env "OPTION1"] =
      .failed (.yamlError "node not found") ∧
    runSource yamlLibOption1 envOption1 missingPathParser (.vStr "")
      (.env "OPTION1") = .ok (.vStr "envv") ∧
    (Parser.Parse yamlLibOption1 envOption1 missingPathParser).outcome =
      .errored (.yamlError "node not found") :=
  ⟨by decide, rfl, by decide⟩

/-- C6 (amended): for a Setting with a document-path source, a non-empty
document and a path that does not exist in it, `Path.Read` fails with the
node-not-found error of the external library; `errors.Is` does not identify
it with the package `ErrNotFound` sentinel, so the source loop aborts
resolution of the Setting with that error instead of continuing to the next
configured source. -/
theorem missingPathAborts (lib : YamlLib) (envm : EnvMap) (p : Parser)
    (cell : GoValue) (path : String) (rest : List Source)
    (hdoc : p.yaml ≠ "") (hpath : lib.pathStringOk path = true)
    (hread : lib.read path p.yaml cell.kind = .notFoundNode) :
    Parser.parse lib envm p cell (.yaml path :: rest) =
      .failed (.yamlError "node not found") := by
  have hlen : ¬ p.yaml.length = 0 := by
    intro h0
    exact hdoc (by
      cases hstr : p.yaml with
      | mk l =>
        rw [hstr] at h0
        cases l with
        | nil => rfl
        | cons a as => simp [String.length] at h0)
  simp [Parser.parse, runSource, parseYAML, hlen, hpath, hread, errorsIsNotFound]

/-- Witness for C6 (amended): the concrete session of the counterexample. -/
theorem missingPathAborts_witness :
    Parser.parse yamlLibOption1 envOption1 missingPathParser (.vStr "")
      [.yaml "$.missing", .env "OPTION1"] =
      .failed (.yamlError "node not found") :=
  missingPathAborts yamlLibOption1 envOption1 missingPathParser (.vStr "")
    "$.missing" [.env "OPTION1"] (by decide) (by decide) (by decide)

/-- Decimal digit character for a digit value below ten. -/
def digitChar (d : Nat) : Char := Char.ofNat (48 + d)

/-- Digit list of a natural number in base ten, most significant digit
first, with an accumulator. -/
def natToDecimalAux (n : Nat) (acc : List Char) : List Char :=
  let acc2 := digitChar (n % 10) :: acc
  if n < 10 then acc2 else natToDecimalAux (n / 10) acc2
termination_by n
decreasing_by exact Nat.div_lt_self (by omega) (by omega)

/-- Canonical base-ten string of a natural number. -/
def natToDecimal (n : Nat) : String := String.mk (natToDecimalAux n [])

/-- Canonical base-ten string of an integer: a minus sign followed by the
digits of the absolute value when negative. -/
def intToDecimal (n : Int) : String :=
  if n < 0 then "-" ++ natToDecimal n.natAbs else natToDecimal n.natAbs

/-- Canonical boolean strings, the documented canonical tokens of
`strconv.ParseBool` and `strconv.FormatBool`. -/
def boolCanon (b : Bool) : String := if b then "true" else "false"

/-- Canonical duration string: the value in nanoseconds followed by the
`ns` unit, as accepted by `time.ParseDuration`. -/
def durCanon (n : Int) : String := intToDecimal n ++ "ns"

/-- Zero-pad a digit list on the left to the given width. -/
def padZeros (k : Nat) (l : List Char) : List Char :=
  List.replicate (k - l.length) '0' ++ l

/-- Canonical decimal string of the rational `m / 10 ^ k`: the integer part
and, when `k` is positive, a point followed by exactly `k` fraction
digits. -/
def floatCanon (m : Int) (k : Nat) : String :=
  if k = 0 then intToDecimal m
  else
    (if m < 0 then "-" else "") ++ natToDecimal (m.natAbs / 10 ^ k) ++ "." ++
      String.mk (padZeros k (natToDecimalAux (m.natAbs % 10 ^ k) []))

theorem digitChar_isDigit (d : Nat) (h : d < 10) : isDigitChar (digitChar d) = true := by
  interval_cases d <;> decide

theorem digitVal_digitChar (d : Nat) (h : d < 10) : digitVal (digitChar d) = d := by
  interval_cases d <;> decide

theorem digit_ne_minus (c : Char) (h : isDigitChar c = true) : ¬ c = '-' := by
  intro he
  subst he
  simp [isDigitChar] at h

theorem digit_ne_plus (c : Char) (h : isDigitChar c = true) : ¬ c = '+' := by
  intro he
  subst he
  simp [isDigitChar] at h

theorem natToDecimalAux_eq (n : Nat) (acc : List Char) :
    natToDecimalAux n acc =
      if n < 10 then digitChar (n % 10) :: acc
      else natToDecimalAux (n / 10) (digitChar (n % 10) :: acc) := by
  rw [natToDecimalAux]

theorem natToDecimalAux_acc : ∀ (n : Nat) (acc : List Char),
    natToDecimalAux n acc = natToDecimalAux n [] ++ acc := by
  intro n
  induction n using Nat.strong_induction_on with
  | _ n ih =>
    intro acc
    by_cases h : n < 10
    · rw [natToDecimalAux_eq n acc, natToDecimalAux_eq n []]
      simp [h]
    · rw [natToDecimalAux_eq n acc, natToDecimalAux_eq n []]
      simp only [h, if_false]
      rw [ih (n / 10) (Nat.div_lt_self (by omega) (by omega)) (digitChar (n % 10) :: acc),
          ih (n / 10) (Nat.div_lt_self (by omega) (by omega)) [digitChar (n % 10)]]
      simp

theorem natToDecimalAux_ne_nil (n : Nat) : natToDecimalAux n [] ≠ [] := by
  by_cases h : n < 10
  · rw [natToDecimalAux_eq]
    simp [h]
  · rw [natToDecimalAux_eq]
    simp only [h, if_false]
    rw [natToDecimalAux_acc]
    simp

theorem natToDecimalAux_digits : ∀ n : Nat, ∀ c ∈ natToDecimalAux n [], isDigitChar c := by
  intro n
  induction n using Nat.strong_induction_on with
  | _ n ih =>
    by_cases h : n < 10
    · rw [natToDecimalAux_eq]
      simp only [h, if_true]
      intro c hc
      simp at hc
      subst hc
      exact digitChar_isDigit _ (Nat.mod_lt _ (by omega))
    · rw [natToDecimalAux_eq]
      simp only [h, if_false]
      rw [natToDecimalAux_acc]
      intro c hc
      rcases List.mem_append.mp hc with h1 | h2
      · exact ih (n / 10) (Nat.div_lt_self (by omega) (by omega)) c h1
      · simp at h2
        subst h2
        exact digitChar_isDigit _ (Nat.mod_lt _ (by omega))

theorem digitsVal_foldl (l : List Char) : ∀ a : Nat,
    l.foldl (fun a c => 10 * a + digitVal c) a = a * 10 ^ l.length + digitsVal l := by
  induction l with
  | nil =>
    intro a
    simp [digitsVal]
  | cons c cs ih =>
    intro a
    have hval : digitsVal (c :: cs) = digitVal c * 10 ^ cs.length + digitsVal cs := by
      simp only [digitsVal, List.foldl_cons]
      rw [ih (10 * 0 + digitVal c)]
      simp only [digitsVal]
      ring
    simp only [List.foldl_cons, List.length_cons]
    rw [ih (10 * a + digitVal c), hval]
    ring

theorem digitsVal_cons (c : Char) (cs : List Char) :
    digitsVal (c :: cs) = digitVal c * 10 ^ cs.length + digitsVal cs := by
  simp only [digitsVal, List.foldl_cons]
  rw [digitsVal_foldl cs (10 * 0 + digitVal c)]
  simp only [digitsVal]
  ring

theorem digitsVal_append (a b : List Char) :
    digitsVal (a ++ b) = digitsVal a * 10 ^ b.length + digitsVal b := by
  simp only [digitsVal, List.foldl_append]
  rw [digitsVal_foldl b (List.foldl (fun a c => 10 * a + digitVal c) 0 a)]
  simp only [digitsVal]

theorem digitsVal_natToDecimalAux : ∀ n : Nat, digitsVal (natToDecimalAux n []) = n := by
  intro n
  induction n using Nat.strong_induction_on with
  | _ n ih =>
    by_cases h : n < 10
    · rw [natToDecimalAux_eq]
      simp only [h, if_true]
      rw [digitsVal_cons]
      simp [digitsVal, digitVal_digitChar _ (Nat.mod_lt _ (by omega))]
      omega
    · rw [natToDecimalAux_eq]
      simp only [h, if_false]
      rw [natToDecimalAux_acc, digitsVal_append,
          ih (n / 10) (Nat.div_lt_self (by omega) (by omega))]
      simp [digitsVal, digitVal_digitChar _ (Nat.mod_lt n (by omega))]
      omega

theorem parseDigitsGo_all (l : List Char) : ∀ acc : Nat, (∀ c ∈ l, isDigitChar c) →
    parseDigitsGo l acc = some (l.foldl (fun a c => 10 * a + digitVal c) acc) := by
  induction l with
  | nil =>
    intro acc _
    simp [parseDigitsGo]
  | cons c cs ih =>
    intro acc h
    have hc : isDigitChar c := h c (by simp)
    simp only [parseDigitsGo, hc, if_true, List.foldl_cons]
    exact ih _ (fun d hd => h d (by simp [hd]))

theorem parseDigits_all (l : List Char) (hne : l ≠ []) (h : ∀ c ∈ l, isDigitChar c) :
    parseDigits l = some (digitsVal l) := by
  cases l with
  | nil => exact absurd rfl hne
  | cons c cs =>
    simp only [parseDigits]
    exact parseDigitsGo_all _ 0 h

theorem scanDigits_all_append (a b : List Char) (ha : ∀ c ∈ a, isDigitChar c)
    (hb : ∀ c, b.head? = some c → isDigitChar c = false) :
    scanDigits (a ++ b) = (a, b) := by
  induction a with
  | nil =>
    simp only [List.nil_append]
    cases b with
    | nil => rfl
    | cons c cs =>
      have hc := hb c rfl
      simp [scanDigits, hc]
  | cons c cs ih =>
    have hc : isDigitChar c := ha c (by simp)
    simp [scanDigits, hc, ih (fun d hd => ha d (by simp [hd]))]

theorem string_data_append (s t : String) : (s ++ t).data = s.data ++ t.data := rfl

theorem goAtoi_natToDecimal (m : Nat) (hm : m ≤ 2 ^ 63 - 1) :
    goAtoi (natToDecimal m) = .ok (m : Int) := by
  rcases hrep : natToDecimalAux m [] with _ | ⟨c, rest⟩
  · exact absurd hrep (natToDecimalAux_ne_nil m)
  · have hdigits : ∀ d ∈ natToDecimalAux m [], isDigitChar d := natToDecimalAux_digits m
    have hc : isDigitChar c := by
      apply hdigits
      rw [hrep]
      simp
    have hcm := digit_ne_minus c hc
    have hcp := digit_ne_plus c hc
    have hval : parseDigits (c :: rest) = some m := by
      rw [← hrep]
      rw [parseDigits_all _ (natToDecimalAux_ne_nil m) hdigits,
          digitsVal_natToDecimalAux]
    simp only [goAtoi, natToDecimal, hrep, hcm, hcp, if_false, hval, hm, if_true]
    simp

theorem goAtoi_roundtrip (n : Int) (h1 : -(2 ^ 63) ≤ n) (h2 : n ≤ 2 ^ 63 - 1) :
    goAtoi (intToDecimal n) = .ok n := by
  by_cases hneg : n < 0
  · have habs : n.natAbs ≤ 2 ^ 63 := by omega
    have hdigits := natToDecimalAux_digits n.natAbs
    have hdata : (intToDecimal n).data = '-' :: natToDecimalAux n.natAbs [] := by
      simp only [intToDecimal, hneg, if_true, natToDecimal]
      rfl
    have hval : parseDigits (natToDecimalAux n.natAbs []) = some n.natAbs := by
      rw [parseDigits_all _ (natToDecimalAux_ne_nil _) hdigits,
          digitsVal_natToDecimalAux]
    simp only [goAtoi, hdata, hval, habs]
    simp only [reduceIte, hval, habs, if_true]
    congr 1
    omega
  · have hm : n.natAbs ≤ 2 ^ 63 - 1 := by omega
    have hdec : intToDecimal n = natToDecimal n.natAbs := by
      simp [intToDecimal, hneg]
    rw [hdec, goAtoi_natToDecimal _ hm]
    congr 1
    omega

theorem digitsVal_replicate_zero (j : Nat) : digitsVal (List.replicate j '0') = 0 := by
  induction j with
  | zero => rfl
  | succ i ih =>
    rw [List.replicate_succ, digitsVal_cons, ih]
    simp [digitVal]

theorem digitsVal_padZeros (k : Nat) (l : List Char) :
    digitsVal (padZeros k l) = digitsVal l := by
  rw [padZeros, digitsVal_append, digitsVal_replicate_zero]
  simp

theorem padZeros_length (k : Nat) (l : List Char) (h : l.length ≤ k) :
    (padZeros k l).length = k := by
  simp [padZeros]
  omega

theorem padZeros_digits (k : Nat) (l : List Char) (h : ∀ c ∈ l, isDigitChar c) :
    ∀ c ∈ padZeros k l, isDigitChar c := by
  intro c hc
  rcases List.mem_append.mp hc with h1 | h2
  · have := List.eq_of_mem_replicate h1
    subst this
    decide
  · exact h c h2

theorem natToDecimalAux_length_le : ∀ n k : Nat, 1 ≤ k → n < 10 ^ k →
    (natToDecimalAux n []).length ≤ k := by
  intro n
  induction n using Nat.strong_induction_on with
  | _ n ih =>
    intro k hk hn
    by_cases h : n < 10
    · rw [natToDecimalAux_eq]
      simp [h, hk]
    · rw [natToDecimalAux_eq]
      simp only [h, if_false]
      rw [natToDecimalAux_acc]
      simp only [List.length_append, List.length_cons, List.length_nil]
      have hk2 : 2 ≤ k := by
        rcases Nat.lt_or_ge k 2 with hlt | hge
        · interval_cases k
          simp at hn
          omega
        · exact hge
      have hdiv : n / 10 < 10 ^ (k - 1) := by
        rw [Nat.div_lt_iff_lt_mul (by omega)]
        have h10 : 10 ^ (k - 1) * 10 = 10 ^ k := by
          rw [← pow_succ]
          congr 1
          omega
        omega
      have := ih (n / 10) (Nat.div_lt_self (by omega) (by omega)) (k - 1) (by omega) hdiv
      omega

theorem goParseFloatBody_int (neg : Bool) (l : List Char)
    (hl : ∀ c ∈ l, isDigitChar c) (hne : l ≠ []) :
    goParseFloatBody neg l =
      .ok (if neg then -(digitsVal l : Rat) else (digitsVal l : Rat)) := by
  have hscan : scanDigits l = (l, []) := by
    have h := scanDigits_all_append l [] hl (by intro c hc; simp at hc)
    simpa using h
  simp only [goParseFloatBody, hscan, hne, mantissaVal]
  simp [hne]

theorem goParseFloatBody_frac (neg : Bool) (intd fracd : List Char)
    (hi : ∀ c ∈ intd, isDigitChar c) (hf : ∀ c ∈ fracd, isDigitChar c)
    (hne : intd ≠ []) :
    goParseFloatBody neg (intd ++ '.' :: fracd) =
      .ok (if neg then -((digitsVal (intd ++ fracd) : Rat) / (10 : Rat) ^ fracd.length)
           else (digitsVal (intd ++ fracd) : Rat) / (10 : Rat) ^ fracd.length) := by
  have hscan1 : scanDigits (intd ++ '.' :: fracd) = (intd, '.' :: fracd) := by
    apply scanDigits_all_append _ _ hi
    intro c hc
    simp at hc
    subst hc
    decide
  have hscan2 : scanDigits fracd = (fracd, []) := by
    have h := scanDigits_all_append fracd [] hf (by intro c hc; simp at hc)
    simpa using h
  simp only [goParseFloatBody, hscan1, hscan2, mantissaVal]
  simp [hne]

theorem cast_natAbs_of_nonneg (m : Int) (h : ¬ m < 0) :
    ((m.natAbs : Nat) : Rat) = (m : Rat) := by
  rw [← Int.cast_natCast (R := Rat) m.natAbs, Int.natAbs_of_nonneg (by omega)]

theorem cast_natAbs_of_neg (m : Int) (h : m < 0) :
    ((m.natAbs : Nat) : Rat) = -(m : Rat) := by
  have h2 : (m.natAbs : Int) = -m := by omega
  rw [← Int.cast_natCast (R := Rat) m.natAbs, h2, Int.cast_neg]

theorem goParseFloat_roundtrip (m : Int) (k : Nat) :
    goParseFloat (floatCanon m k) = .ok ((m : Rat) / (10 : Rat) ^ k) := by
  by_cases hk : k = 0
  · subst hk
    by_cases hm : m < 0
    · have hdata : (floatCanon m 0).data = '-' :: natToDecimalAux m.natAbs [] := by
        simp only [floatCanon, if_true, intToDecimal, hm, natToDecimal]
        rfl
      simp only [goParseFloat, hdata, reduceIte]
      rw [goParseFloatBody_int true _ (natToDecimalAux_digits _) (natToDecimalAux_ne_nil _)]
      simp only [digitsVal_natToDecimalAux, pow_zero, div_one]
      rw [cast_natAbs_of_neg m hm]
      simp
    · have hdata : (floatCanon m 0).data = natToDecimalAux m.natAbs [] := by
        simp only [floatCanon, if_true, intToDecimal, hm, if_false, natToDecimal]
      rcases hrep : natToDecimalAux m.natAbs [] with _ | ⟨c, rest⟩
      · exact absurd hrep (natToDecimalAux_ne_nil _)
      · have hc : isDigitChar c := by
          apply natToDecimalAux_digits
          rw [hrep]
          simp
        have hcm := digit_ne_minus c hc
        have hcp := digit_ne_plus c hc
        simp only [goParseFloat, hdata, hrep, hcm, hcp, if_false]
        rw [← hrep]
        rw [goParseFloatBody_int false _ (natToDecimalAux_digits _) (natToDecimalAux_ne_nil _)]
        simp only [digitsVal_natToDecimalAux, pow_zero, div_one]
        rw [cast_natAbs_of_nonneg m hm]
        simp
  · have hk1 : 1 ≤ k := by omega
    have hrk : m.natAbs % 10 ^ k < 10 ^ k := Nat.mod_lt _ (by positivity)
    have hlen : (natToDecimalAux (m.natAbs % 10 ^ k) []).length ≤ k :=
      natToDecimalAux_length_le _ k hk1 hrk
    have hpadlen : (padZeros k (natToDecimalAux (m.natAbs % 10 ^ k) [])).length = k :=
      padZeros_length _ _ hlen
    have hpaddig : ∀ c ∈ padZeros k (natToDecimalAux (m.natAbs % 10 ^ k) []), isDigitChar c :=
      padZeros_digits _ _ (natToDecimalAux_digits _)
    have hvalue : digitsVal (natToDecimalAux (m.natAbs / 10 ^ k) [] ++
        padZeros k (natToDecimalAux (m.natAbs % 10 ^ k) [])) = m.natAbs := by
      rw [digitsVal_append, digitsVal_padZeros, digitsVal_natToDecimalAux,
          digitsVal_natToDecimalAux, hpadlen]
      have hdm := Nat.div_add_mod m.natAbs (10 ^ k)
      rw [Nat.mul_comm] at hdm
      exact hdm
    by_cases hm : m < 0
    · have hdata : (floatCanon m k).data =
          '-' :: (natToDecimalAux (m.natAbs / 10 ^ k) [] ++
            '.' :: padZeros k (natToDecimalAux (m.natAbs % 10 ^ k) [])) := by
        simp only [floatCanon, hk, if_false, hm, if_true, natToDecimal,
          string_data_append]
        simp [string_data_append]
      simp only [goParseFloat, hdata, reduceIte]
      rw [goParseFloatBody_frac true _ _ (natToDecimalAux_digits _) hpaddig
        (natToDecimalAux_ne_nil _)]
      simp only [hvalue, hpadlen]
      rw [cast_natAbs_of_neg m hm]
      rw [neg_div]
      simp
    · have hdata : (floatCanon m k).data =
          natToDecimalAux (m.natAbs / 10 ^ k) [] ++
            '.' :: padZeros k (natToDecimalAux (m.natAbs % 10 ^ k) []) := by
        simp only [floatCanon, hk, if_false, hm, natToDecimal, string_data_append]
        simp [string_data_append]
      rcases hrep : natToDecimalAux (m.natAbs / 10 ^ k) [] with _ | ⟨c, rest⟩
      · exact absurd hrep (natToDecimalAux_ne_nil _)
      · have hc : isDigitChar c := by
          apply natToDecimalAux_digits
          rw [hrep]
          simp
        have hcm := digit_ne_minus c hc
        have hcp := digit_ne_plus c hc
        rw [hrep] at hdata
        simp only [goParseFloat, hdata, List.cons_append, hcm, hcp, if_false]
        rw [← List.cons_append, ← hrep]
        rw [goParseFloatBody_frac false _ _ (natToDecimalAux_digits _) hpaddig
          (natToDecimalAux_ne_nil _)]
        simp only [hvalue, hpadlen]
        rw [cast_natAbs_of_nonneg m hm]
        simp

theorem goDurTerm_ns (digits : List Char) (hd : ∀ c ∈ digits, isDigitChar c)
    (hne : digits ≠ []) :
    goDurTerm (digits ++ ['n', 's']) = .ok (digitsVal digits, []) := by
  have hscan : scanDigits (digits ++ ['n', 's']) = (digits, ['n', 's']) := by
    apply scanDigits_all_append _ _ hd
    intro c hc
    simp at hc
    subst hc
    decide
  have hne2 : digits.isEmpty = false := by
    cases digits with
    | nil => exact absurd rfl hne
    | cons c cs => rfl
  have hn : isDigitChar 'n' = false := rfl
  have hs : isDigitChar 's' = false := rfl
  simp only [goDurTerm, hscan]
  simp [hne2, durFracScan, scanUnitChars, unitScale, hn, hs]

theorem goDurLoop_ns (digits : List Char) (hd : ∀ c ∈ digits, isDigitChar c)
    (hne : digits ≠ []) (fuel : Nat) (hfuel : 1 ≤ fuel) :
    goDurLoop fuel (digits ++ ['n', 's']) 0 = .ok (digitsVal digits) := by
  cases digits with
  | nil => exact absurd rfl hne
  | cons c cs =>
    cases fuel with
    | zero => omega
    | succ f =>
      have hterm := goDurTerm_ns (c :: cs) hd hne
      simp only [List.cons_append] at hterm ⊢
      simp only [goDurLoop, hterm]
      simp

theorem goParseDuration_roundtrip (n : Int) (h1 : -(2 ^ 63) ≤ n)
    (h2 : n ≤ 2 ^ 63 - 1) : goParseDuration (durCanon n) = .ok n := by
  have hdigits := natToDecimalAux_digits n.natAbs
  have hdignil := natToDecimalAux_ne_nil n.natAbs
  have hlen1 : 1 ≤ (natToDecimalAux n.natAbs []).length := by
    cases hrep : natToDecimalAux n.natAbs [] with
    | nil => exact absurd hrep hdignil
    | cons c cs => simp
  have hne0 : ¬ natToDecimalAux n.natAbs [] ++ ['n', 's'] = ['0'] := by
    intro hcon
    have hlen := congrArg List.length hcon
    simp only [List.length_append, List.length_cons, List.length_nil] at hlen
    omega
  have hnenil : ¬ natToDecimalAux n.natAbs [] ++ ['n', 's'] = [] := by simp
  have hloop : goDurLoop (natToDecimalAux n.natAbs [] ++ ['n', 's']).length
      (natToDecimalAux n.natAbs [] ++ ['n', 's']) 0 = .ok n.natAbs := by
    rw [goDurLoop_ns _ hdigits hdignil _ (by simp), digitsVal_natToDecimalAux]
  by_cases hneg : n < 0
  · have hdata : (durCanon n).data =
        '-' :: (natToDecimalAux n.natAbs [] ++ ['n', 's']) := by
      simp only [durCanon, intToDecimal, hneg, if_true, natToDecimal,
        string_data_append]
      rfl
    have habs : ¬ n.natAbs > 2 ^ 63 := by omega
    simp only [goParseDuration, hdata, reduceIte, hne0, hnenil, if_false, hloop,
      habs, if_true]
    have hcast : -((n.natAbs : Int)) = n := by omega
    rw [hcast]
  · have hdata : (durCanon n).data = natToDecimalAux n.natAbs [] ++ ['n', 's'] := by
      simp only [durCanon, intToDecimal, hneg, if_false, natToDecimal,
        string_data_append]
    rcases hrep : natToDecimalAux n.natAbs [] with _ | ⟨c, rest⟩
    · exact absurd hrep hdignil
    · have hc : isDigitChar c := by
        apply hdigits
        rw [hrep]
        simp
      have hcm := digit_ne_minus c hc
      have hcp := digit_ne_plus c hc
      have habs : ¬ n.natAbs > 2 ^ 63 := by omega
      have habs2 : ¬ n.natAbs > 2 ^ 63 - 1 := by omega
      simp only [goParseDuration, hdata, hrep, List.cons_append, hcm, hcp,
        if_false]
      rw [← List.cons_append, ← hrep]
      simp only [hne0, hnenil, if_false, hloop, habs, habs2, if_true]
      have hcast : ((n.natAbs : Int)) = n := by omega
      rw [hcast]
      simp

theorem setFromString_error_not_notFound (cell : GoValue) (raw : String) (e : GoError)
    (h : setFromString cell raw = .error e) : errorsIsNotFound e = false := by
  cases cell with
  | vStr s0 => simp [setFromString] at h
  | vInt n0 =>
    simp only [setFromString] at h
    cases hp : goAtoi raw with
    | error m =>
      rw [hp] at h
      simp at h
      rw [← h]
      rfl
    | ok v =>
      rw [hp] at h
      simp at h
  | vFloat q0 =>
    simp only [setFromString] at h
    cases hp : goParseFloat raw with
    | error m =>
      rw [hp] at h
      simp at h
      rw [← h]
      rfl
    | ok v =>
      rw [hp] at h
      simp at h
  | vBool b0 =>
    simp only [setFromString] at h
    cases hp : goParseBool raw with
    | error m =>
      rw [hp] at h
      simp at h
      rw [← h]
      rfl
    | ok v =>
      rw [hp] at h
      simp at h
  | vDur n0 =>
    simp only [setFromString] at h
    cases hp : goParseDuration raw with
    | error m =>
      rw [hp] at h
      simp at h
      rw [← h]
      rfl
    | ok v =>
      rw [hp] at h
      simp at h
  | vOther =>
    simp only [setFromString, Except.error.injEq] at h
    rw [← h]
    rfl

/-- C7: for every supported kind and the canonical string representation of
every value of that kind, coercion yields exactly that value — text is
written as is, the base-ten rendering of every 64-bit integer parses back to
it, the exact decimal rendering of every decimal rational parses back to it
(exact-decimal model of float64, so `3.14` yields 3.14 exactly), the
canonical boolean tokens parse to their booleans, the nanosecond rendering
of every 64-bit duration parses back to it, and the example `1h` yields one
hour in nanoseconds — and a matched raw string that fails to parse yields a
type error and aborts resolution of the Setting, leaving the destination
cell unwritten. -/
theorem coercionCanonicalRoundtrip :
    (∀ (old s : String), setFromString (.vStr old) s = .ok (.vStr s)) ∧
    (∀ (old n : Int), -(2 ^ 63) ≤ n → n ≤ 2 ^ 63 - 1 →
       setFromString (.vInt old) (intToDecimal n) = .ok (.vInt n)) ∧
    (∀ (oldq : Rat) (m : Int) (k : Nat),
       setFromString (.vFloat oldq) (floatCanon m k) =
         .ok (.vFloat ((m : Rat) / (10 : Rat) ^ k))) ∧
    (∀ (oldb b : Bool),
       setFromString (.vBool oldb) (boolCanon b) = .ok (.vBool b)) ∧
    (∀ (old n : Int), -(2 ^ 63) ≤ n → n ≤ 2 ^ 63 - 1 →
       setFromString (.vDur old) (durCanon n) = .ok (.vDur n)) ∧
    (∀ old : Int, setFromString (.vDur old) "1h" = .ok (.vDur 3600000000000)) ∧
    (∀ (lib : YamlLib) (envm : EnvMap) (p : Parser) (s : Setting)
       (cell : GoValue) (name raw : String) (e : GoError),
       s.v = some cell →
       s.parseFuncs = [.env name] →
       envLookup envm (p.envPfx ++ name) = some raw →
       setFromString cell raw = .error e →
       Parser.set lib envm p s = (some cell, .errored e)) := by
  refine ⟨?_, ?_, ?_, ?_, ?_, ?_, ?_⟩
  · intro old s
    rfl
  · intro old n h1 h2
    simp only [setFromString, goAtoi_roundtrip n h1 h2]
  · intro oldq m k
    simp only [setFromString, goParseFloat_roundtrip m k]
  · intro oldb b
    cases b <;> rfl
  · intro old n h1 h2
    simp only [setFromString, goParseDuration_roundtrip n h1 h2]
  · intro old
    rfl
  · intro lib envm p s cell name raw e hv hfuncs hlook hsfs
    have hnnf := setFromString_error_not_notFound cell raw e hsfs
    have hparse : Parser.parse lib envm p cell s.parseFuncs = .failed e := by
      rw [hfuncs]
      simp only [Parser.parse, runSource, parseEnv, hlook, hsfs]
      simp [hnnf]
    simp [Parser.set, hv, hparse]

/-- Witness for C7: the canonical representations of 42, 3.14, true and one
hour coerce back to their values, the example `1h` coerces to one hour, and
the unparseable raw string `abc` matched for an integer destination aborts
resolution with a type error, leaving the destination at its prior value. -/
theorem coercionCanonicalRoundtrip_witness :
    setFromString (.vInt 0) (intToDecimal 42) = .ok (.vInt 42) ∧
    setFromString (.vFloat 0) (floatCanon 314 2) =
      .ok (.vFloat ((314 : Rat) / (10 : Rat) ^ 2)) ∧
    setFromString (.vBool false) (boolCanon true) = .ok (.vBool true) ∧
    setFromString (.vDur 0) (durCanon 3600000000000) =
      .ok (.vDur 3600000000000) ∧
    setFromString (.vDur 0) "1h" = .ok (.vDur 3600000000000) ∧
    Parser.set yamlLibOption1 [("OPTION1", "abc")] emptyParser
      { v := some (.vInt 0), parseFuncs := [.env "OPTION1"],
        defaultValue := none, required := false } =
      (some (.vInt 0), .errored (.typeError "invalid syntax")) := by
  refine ⟨?_, ?_, ?_, ?_, ?_, ?_⟩
  · exact coercionCanonicalRoundtrip.2.1 0 42 (by decide) (by decide)
  · exact coercionCanonicalRoundtrip.2.2.1 0 314 2
  · exact coercionCanonicalRoundtrip.2.2.2.1 false true
  · exact coercionCanonicalRoundtrip.2.2.2.2.1 0 3600000000000 (by decide) (by decide)
  · exact coercionCanonicalRoundtrip.2.2.2.2.2.1 0
  · exact coercionCanonicalRoundtrip.2.2.2.2.2.2 yamlLibOption1
      [("OPTION1", "abc")] emptyParser
      { v := some (.vInt 0), parseFuncs := [.env "OPTION1"],
        defaultValue := none, required := false }
      (.vInt 0) "OPTION1" "abc" (.typeError "invalid syntax") rfl rfl rfl rfl
